import Mathlib

/-!
Shallow embedding of the core of city_scrapers/spiders/alle_library_assoc.py:
the date-line tokenizer (regular expression date_reg plus strptime with
format "%A, %B %d"), the schedule assembler _make_meeting, and the two
structural verifiers _ensure_times_are_as_expected and
_ensure_meetings_are_remote.  Text is modelled as List Char; Python
exceptions are modelled with Except / an explicit per-line result type.
Unicode-dependent primitives (casefold, the word class of the regex) are
modelled on the ASCII fragment, which covers every string the program pins
as a constant and every input exercised here.
-/

namespace AlleLib

/-! ### Character classes

isWs models the Python regular-expression class backslash-s for str
patterns and also the character set stripped by str.strip(): the ASCII
whitespace control characters together with the Unicode whitespace
code points recognised by CPython. -/

def pyWsChars : List Char :=
  ['\t', '\n', '\x0b', '\x0c', '\r', '\x1c', '\x1d', '\x1e', '\x1f', ' ',
   '\x85', '\u00A0', '\u1680', '\u2000', '\u2001', '\u2002', '\u2003', '\u2004',
   '\u2005', '\u2006', '\u2007', '\u2008', '\u2009', '\u200A', '\u2028', '\u2029',
   '\u202F', '\u205F', '\u3000']

def isWs (c : Char) : Bool := decide (c ∈ pyWsChars)

/-- Word characters of the regular expression (ASCII fragment of backslash-w). -/
def isWord (c : Char) : Bool := c.isAlphanum || c == '_'

/-- ASCII lowering; stands in for IGNORECASE matching and str.casefold on
the ASCII strings handled by this spider. -/
def asciiLower (c : Char) : Char :=
  if 'A' ≤ c && c ≤ 'Z' then Char.ofNat (c.toNat + 32) else c

/-- Python str.strip(): drop whitespace from both ends. -/
def pyStrip (s : List Char) : List Char :=
  ((s.dropWhile isWs).reverse.dropWhile isWs).reverse

/-- Python substring containment, s2 contains s1 (the in operator). -/
def startsList : List Char → List Char → Bool
  | [], _ => true
  | _ :: _, [] => false
  | p :: ps, c :: cs => p == c && startsList ps cs

def containsSub (pat : List Char) : List Char → Bool
  | [] => pat.isEmpty
  | c :: cs => startsList pat (c :: cs) || containsSub pat cs

/-! ### The regular expression date_reg

date_reg matches a front segment of the line against
group1 = word+ comma ws+ word+ ws+ digit+ followed by the optional
group2 = (ws+ dash ws+ | ws+) group4 = dot-star, where dash is an ASCII
hyphen-minus or an en-dash.  Each quantifier here is deterministic:
every run is maximal because the classes word / whitespace / digit / dash
are pairwise disjoint on the characters involved, so the backtracking
engine's answer coincides with this greedy computation.  The result is
(group 1, group 4); a group 4 value of none means the optional group did
not participate. -/

/-- The note part of date_reg after the day digits: ws+ dash ws+ note,
or ws+ note, or no participation.  Group 4 is dot-star, which stops at a
newline. -/
def group2 (r : List Char) : Option (List Char) :=
  match r.takeWhile isWs, r.dropWhile isWs with
  | [], _ => none
  | _ :: _, c :: r8 =>
    if c == '-' || c == '–' then
      match r8.takeWhile isWs, r8.dropWhile isWs with
      | [], _ => some ((c :: r8).takeWhile (· != '\n'))
      | _ :: _, r9 => some (r9.takeWhile (· != '\n'))
    else some ((c :: r8).takeWhile (· != '\n'))
  | _ :: _, [] => some []

def date_reg_match (s : List Char) : Option (List Char × Option (List Char)) :=
  match s.takeWhile isWord, s.dropWhile isWord with
  | w1h :: w1t, ',' :: r2 =>
    (match r2.takeWhile isWs, r2.dropWhile isWs with
    | s1h :: s1t, r3 =>
      (match r3.takeWhile isWord, r3.dropWhile isWord with
      | w2h :: w2t, r4 =>
        (match r4.takeWhile isWs, r4.dropWhile isWs with
        | s2h :: s2t, r5 =>
          (match r5.takeWhile Char.isDigit, r5.dropWhile Char.isDigit with
          | d1h :: d1t, r6 =>
            some ((w1h :: w1t) ++ ',' ::
                    ((s1h :: s1t) ++ ((w2h :: w2t) ++ ((s2h :: s2t) ++ (d1h :: d1t)))),
                  group2 r6)
          | _, _ => none)
        | _, _ => none)
      | _, _ => none)
    | _, _ => none)
  | _, _ => none

/-! ### datetime.strptime(date_str, "%A, %B %d")

CPython compiles the format to a case-insensitive regular expression:
an alternation of the locale weekday names (longest first), a literal
comma, ws+ (whitespace in the format matches any whitespace run), an
alternation of the locale month names, ws+, and the day alternation
3[01] | [12]digit | 0[1-9] | [1-9].  The whole input must be consumed,
otherwise ValueError (unconverted data remains).  The matched month NAME
is mapped to its calendar number.  Finally the result is validated by
constructing datetime(1900, month, day): 1900 is the default year of
strptime and is not a leap year. -/

/-- Case-insensitive literal: consume pat from the front of s. -/
def ciStrip : List Char → List Char → Option (List Char)
  | [], s => some s
  | _ :: _, [] => none
  | n :: ns, c :: cs => if asciiLower c == asciiLower n then ciStrip ns cs else none

/-- First table entry whose name is a case-insensitive front of s wins;
returns its value and the rest of s. -/
def matchTable : List (List Char × Nat) → List Char → Option (Nat × List Char)
  | [], _ => none
  | (n, v) :: rest, s =>
    match ciStrip n s with
    | some r => some (v, r)
    | none => matchTable rest s

/-- Weekday names as in CPython strptime: sorted by length, longest
first, stable in calendar (Monday-first) order; no name is a
case-insensitive front of the start of another, so order never changes
the outcome. -/
def weekdayTable : List (List Char × Nat) :=
  [("wednesday".data, 3), ("thursday".data, 4), ("saturday".data, 6), ("tuesday".data, 2),
   ("monday".data, 1), ("friday".data, 5), ("sunday".data, 7)]

/-- Month names sorted by length, longest first, stable in calendar
order, each paired with its month number. -/
def monthTable : List (List Char × Nat) :=
  [("september".data, 9), ("february".data, 2), ("november".data, 11), ("december".data, 12),
   ("january".data, 1), ("october".data, 10), ("august".data, 8), ("march".data, 3),
   ("april".data, 4), ("june".data, 6), ("july".data, 7), ("may".data, 5)]

/-- The strptime day alternation 3[01] | [12]digit | 0[1-9] | [1-9],
first alternative wins. -/
def matchDay : List Char → Option (Nat × List Char)
  | '3' :: '0' :: r => some (30, r)
  | '3' :: '1' :: r => some (31, r)
  | c1 :: c2 :: r =>
    if (c1 == '1' || c1 == '2') && c2.isDigit then
      some ((c1.toNat - 48) * 10 + (c2.toNat - 48), r)
    else if c1 == '0' && ('1' ≤ c2 && c2 ≤ '9') then
      some (c2.toNat - 48, r)
    else if '1' ≤ c1 && c1 ≤ '9' then
      some (c1.toNat - 48, c2 :: r)
    else none
  | [c1] => if '1' ≤ c1 && c1 ≤ '9' then some (c1.toNat - 48, []) else none
  | [] => none

/-- A nonempty whitespace run (the ws+ pieces of the compiled format). -/
def wsPlus (s : List Char) : Option (List Char) :=
  match s.takeWhile isWs, s.dropWhile isWs with
  | [], _ => none
  | _ :: _, r => some r

/-- Token phase of strptime("%A, %B %d"): returns (month, day) when the
compiled regular expression matches the whole input. -/
def strptimeTokens (s : List Char) : Option (Nat × Nat) :=
  match matchTable weekdayTable s with
  | none => none
  | some (_, r1) =>
    match r1 with
    | c :: r2 =>
      if c ≠ ',' then none else
      (match wsPlus r2 with
      | none => none
      | some r3 =>
        match matchTable monthTable r3 with
        | none => none
        | some (m, r4) =>
          match wsPlus r4 with
          | none => none
          | some r5 =>
            match matchDay r5 with
            | none => none
            | some (d, r6) => if r6 = [] then some (m, d) else none)
    | [] => none

/-- Gregorian leap-year rule, as in Python datetime. -/
def isLeap (y : Nat) : Bool := y % 4 == 0 && (y % 100 != 0 || y % 400 == 0)

def daysInMonth (y m : Nat) : Nat :=
  if m = 2 then (if isLeap y then 29 else 28)
  else if m = 1 ∨ m = 3 ∨ m = 5 ∨ m = 7 ∨ m = 8 ∨ m = 10 ∨ m = 12 then 31
  else if m = 4 ∨ m = 6 ∨ m = 9 ∨ m = 11 then 30
  else 0

/-! ### _date_from_lis -/

/-- The two ValueError sources of the loop body: the strptime token
regular expression not matching, and an out-of-range calendar date at
datetime / date construction. -/
inductive PyError where
  | badToken
  | badDate
deriving DecidableEq

structure PyDate where
  year : Nat
  month : Nat
  day : Nat
deriving DecidableEq

structure Location where
  name : List Char
  address : List Char
deriving DecidableEq

/-- MeetingDate of the source (dataclass with the_date, the_place, notes). -/
structure MeetingDate where
  the_date : PyDate
  the_place : Location
  notes : Option (List Char)
deriving DecidableEq

/-- The constant location dict built in _date_from_lis. -/
def remoteLocation : Location := ⟨"Remote".data, "Remote".data⟩

/-- Outcome of one iteration of the _date_from_lis loop: the regular
expression did not match (continue), a MeetingDate was appended, or a
ValueError was raised. -/
inductive LineRes where
  | skipped
  | gotDate (m : MeetingDate)
  | raised (e : PyError)
deriving DecidableEq

/-- One iteration of the _date_from_lis loop on line li.  The current
year (date.today().year, an ambient read in the source) is the explicit
parameter year.  strptime validates the tokens against its default year
1900; date(year, month, day) then re-validates against the processing
year. -/
def parseLine (year : Nat) (li : List Char) : LineRes :=
  match date_reg_match li with
  | none => .skipped
  | some (g1, g4) =>
    match strptimeTokens (pyStrip g1) with
    | none => .raised .badToken
    | some (m, d) =>
      if d ≤ daysInMonth 1900 m then
        if 1 ≤ m ∧ m ≤ 12 ∧ 1 ≤ d ∧ d ≤ daysInMonth year m then
          .gotDate ⟨⟨year, m, d⟩, remoteLocation,
            match g4 with
            | none => none
            | some l => if l.isEmpty then none else some (pyStrip l)⟩
        else .raised .badDate
      else .raised .badDate

/-- _date_from_lis: the loop over the list items.  A raised ValueError
aborts the whole call, so no fragmentary list is ever returned. -/
def date_from_lis (year : Nat) : List (List Char) → Except PyError (List MeetingDate)
  | [] => .ok []
  | li :: rest =>
    match parseLine year li with
    | .skipped => date_from_lis year rest
    | .raised e => .error e
    | .gotDate m => (date_from_lis year rest).map (m :: ·)

/-! ### _make_meeting -/

structure PyTime where
  hour : Nat
  minute : Nat
  second : Nat
  micro : Nat
deriving DecidableEq

structure PyDateTime where
  year : Nat
  month : Nat
  day : Nat
  hour : Nat
  minute : Nat
  second : Nat
  micro : Nat
deriving DecidableEq

/-- datetime.combine(the_date, meeting_time). -/
def combineDT (d : PyDate) (t : PyTime) : PyDateTime :=
  ⟨d.year, d.month, d.day, t.hour, t.minute, t.second, t.micro⟩

def PyDateTime.fields (d : PyDateTime) : List Nat :=
  [d.year, d.month, d.day, d.hour, d.minute, d.second, d.micro]

/-- Lexicographic order on equal-length Nat lists. -/
def lexLt : List Nat → List Nat → Bool
  | _, [] => false
  | [], _ :: _ => true
  | a :: as, b :: bs => a < b || (a == b && lexLt as bs)

/-- Python datetime comparison is field-lexicographic. -/
def dtLt (a b : PyDateTime) : Bool := lexLt a.fields b.fields

inductive Classification where
  | board
  | forum
  | advisory_committee
  | committee
deriving DecidableEq

inductive Status where
  | cancelled
  | passed
  | confirmed
deriving DecidableEq

structure Meeting where
  id : List Char
  title : List Char
  classification : Classification
  status : Status
  all_day : Bool
  time_notes : Option (List Char)
  location : Location
  source : List Char
  start : PyDateTime
deriving DecidableEq

def startUrl : List Char := "https://aclalibraries.org/who-we-are/".data

/-- Zero-padded decimal of width w, as the strftime directives do it. -/
def padDigits (w n : Nat) : List Char :=
  let ds := Nat.toDigits 10 n
  List.replicate (w - ds.length) '0' ++ ds

/-- start.strftime("%Y_%m_%d"). -/
def strftimeYmd (dt : PyDateTime) : List Char :=
  padDigits 4 dt.year ++ '_' :: (padDigits 2 dt.month ++ '_' :: padDigits 2 dt.day)

/-- Python truthiness of notes followed by the substring test
"canceled" in notes.casefold(). -/
def cancelNote : Option (List Char) → Bool
  | none => false
  | some s => !s.isEmpty && containsSub "canceled".data (s.map asciiLower)

/-- The body of the _make_meeting loop for one MeetingDate.  now models
the ambient datetime.now() reading of the source (line 119), made an
explicit argument here; idStem is the identity-stem argument of the source.
Note the f-string inserts an underscore of its own between the id stem
and the strftime date. -/
def makeOneMeeting (md : MeetingDate) (meeting_time : PyTime) (idStem title : List Char)
    (cls : Classification) (now : PyDateTime) : Meeting :=
  let start := combineDT md.the_date meeting_time
  let status : Status :=
    if cancelNote md.notes then .cancelled
    else if dtLt start now then .passed
    else .confirmed
  { id := idStem ++ '_' :: strftimeYmd start
    title := title
    classification := cls
    status := status
    all_day := false
    time_notes := md.notes
    location := md.the_place
    source := startUrl
    start := start }

/-- _make_meeting: one Meeting per MeetingDate, in order. -/
def make_meeting (dates : List MeetingDate) (meeting_time : PyTime)
    (idStem title : List Char) (cls : Classification) (now : PyDateTime) : List Meeting :=
  dates.map (fun md => makeOneMeeting md meeting_time idStem title cls now)

/-! ### The structural verifiers

The spec excludes HTML tree search from the core: the verifiers receive
an already-located subtree and use only tag-filtered child lookup and
text_content().  HtmlNode models exactly that collaborator contract:
a node carries its tag, its text_content() and its child elements. -/

inductive HtmlNode where
  | mk : (tag : List Char) → (text : List Char) → (children : List HtmlNode) → HtmlNode

def HtmlNode.tag : HtmlNode → List Char
  | .mk t _ _ => t

def HtmlNode.text : HtmlNode → List Char
  | .mk _ x _ => x

def HtmlNode.children : HtmlNode → List HtmlNode
  | .mk _ _ c => c

/-- Child elements with a given tag, in document order. -/
def childTag (t : List Char) (n : HtmlNode) : List HtmlNode :=
  n.children.filter (fun c => c.tag == t)

/-- xpath("p") on the board div. -/
def xpathP (n : HtmlNode) : List HtmlNode := childTag "p".data n

/-- xpath("./div/p"). -/
def xpathDivP (n : HtmlNode) : List HtmlNode :=
  (childTag "div".data n).flatMap (childTag "p".data)

/-- xpath("./div/div/p"). -/
def xpathDivDivP (n : HtmlNode) : List HtmlNode :=
  ((childTag "div".data n).flatMap (childTag "div".data)).flatMap (childTag "p".data)

inductive StructErr where
  | pageChanged
deriving DecidableEq

structure MeetingTimes where
  board : PyTime
  general : PyTime
  advisory : PyTime
  lac : PyTime
deriving DecidableEq

def expected_board_p : List Char :=
  "ACLA Board meetings (6:30 pm unless otherwise noted)".data

def expected_general_p : List Char := "General Membership meetings (7:00 pm)".data

def expected_advisory_p : List Char := "(10:00 am)".data

def expected_lac_p : List Char := "(10:00 am)".data

/-- The four constant times returned on success. -/
def timeConstants : MeetingTimes :=
  ⟨⟨18, 30, 0, 0⟩, ⟨19, 0, 0, 0⟩, ⟨10, 0, 0, 0⟩, ⟨10, 0, 0, 0⟩⟩

/-- _ensure_times_are_as_expected: exactly 3 direct p children, at least
2 p grandchildren through div, the first three p texts and the first
nested p text must strip-equal the four pinned strings, in source order;
any deviation raises PageChangedException. -/
def ensure_times_are_as_expected (d : HtmlNode) : Except StructErr MeetingTimes :=
  match xpathP d with
  | [board_p, general_p, advisory_p] =>
    (match xpathDivP d with
    | lac_p :: _ :: _ =>
      if pyStrip board_p.text = expected_board_p then
        if pyStrip general_p.text = expected_general_p then
          if pyStrip advisory_p.text = expected_advisory_p then
            if pyStrip lac_p.text = expected_lac_p then .ok timeConstants
            else .error .pageChanged
          else .error .pageChanged
        else .error .pageChanged
      else .error .pageChanged
    | _ => .error .pageChanged)
  | _ => .error .pageChanged

def remoteStatement : List Char :=
  "All meetings will be held remotely until further notice".data

/-- _ensure_meetings_are_remote: exactly one p at ./div/div/p whose
text_content() contains the pinned statement; anything else raises
PageChangedException.  Success carries no data (the Python function
returns None). -/
def ensure_meetings_are_remote (d : HtmlNode) : Except StructErr Unit :=
  match xpathDivDivP d with
  | [p] =>
    if containsSub remoteStatement p.text then .ok () else .error .pageChanged
  | _ => .error .pageChanged

/-! ### Auxiliary notions and concrete sample data used by the theorems -/

/-- The head of l, if any, falsifies p.  (Used to state that a character
run is maximal.) -/
def headFails (p : Char → Bool) (l : List Char) : Prop :=
  ∀ x ∈ l.head?, p x = false

/-- The six whitespace characters named by the spec (and exercised by the
source's tests): em space, three-per-em space, punctuation space,
no-break space, tab, ASCII space. -/
def wsSix : List Char := ['\u2003', '\u2004', '\u2008', '\u00A0', '\t', ' ']

/-- Sample time 06:30, as in the source's unit test for _make_meeting. -/
def sampleTime : PyTime := ⟨6, 30, 0, 0⟩

def nowJan8 : PyDateTime := ⟨2021, 1, 8, 0, 0, 0, 0⟩

def nowJan10 : PyDateTime := ⟨2021, 1, 10, 0, 0, 0, 0⟩

/-- A meeting date whose note is the British spelling of the
cancellation word. -/
def cancelledNoteDate : MeetingDate := ⟨⟨2021, 1, 9⟩, remoteLocation, some "cancelled".data⟩

/-- A meeting date with no note, falling between nowJan8 and nowJan10. -/
def plainJan9Date : MeetingDate := ⟨⟨2021, 1, 9⟩, remoteLocation, none⟩

def pNode (t : List Char) : HtmlNode := .mk "p".data t []

/-- A sample board div with exactly the shape the verifiers expect. -/
def goodBoardDiv : HtmlNode :=
  .mk "div".data [] [pNode expected_board_p, pNode expected_general_p, pNode expected_advisory_p,
    .mk "div".data [] [pNode expected_lac_p, pNode [],
      .mk "div".data [] [pNode remoteStatement]]]

/-! ## Theorems -/

/-! ### Maximal-run lemmas for the greedy quantifiers -/

theorem takeWhile_run (p : Char → Bool) (a r : List Char)
    (ha : ∀ x ∈ a, p x = true) (hr : headFails p r) :
    (a ++ r).takeWhile p = a := by
  induction a with
  | nil =>
    simp only [List.nil_append]
    cases r with
    | nil => rfl
    | cons x t => rw [List.takeWhile_cons_of_neg]; simp [hr x (by simp)]
  | cons x xs ih =>
    rw [List.cons_append, List.takeWhile_cons_of_pos (ha x (by simp)),
      ih (fun y hy => ha y (by simp [hy]))]

theorem dropWhile_run (p : Char → Bool) (a r : List Char)
    (ha : ∀ x ∈ a, p x = true) (hr : headFails p r) :
    (a ++ r).dropWhile p = r := by
  induction a with
  | nil =>
    simp only [List.nil_append]
    cases r with
    | nil => rfl
    | cons x t => rw [List.dropWhile_cons_of_neg]; simp [hr x (by simp)]
  | cons x xs ih =>
    rw [List.cons_append, List.dropWhile_cons_of_pos (ha x (by simp)),
      ih (fun y hy => ha y (by simp [hy]))]

theorem dropWhile_headFails (p : Char → Bool) (l : List Char) (h : headFails p l) :
    l.dropWhile p = l := by
  cases l with
  | nil => rfl
  | cons x t => rw [List.dropWhile_cons_of_neg]; simp [h x (by simp)]

/-! ### Character-class facts -/

theorem isWs_iff_mem {c : Char} : isWs c = true ↔ c ∈ pyWsChars := by
  simp [isWs]

theorem ws_not_word {c : Char} (h : isWs c = true) : isWord c = false := by
  have hc : c ∈ pyWsChars := isWs_iff_mem.mp h
  fin_cases hc <;> decide

theorem ws_not_digit {c : Char} (h : isWs c = true) : c.isDigit = false := by
  have hc : c ∈ pyWsChars := isWs_iff_mem.mp h
  fin_cases hc <;> decide

theorem word_not_ws {c : Char} (h : isWord c = true) : isWs c = false := by
  cases hw : isWs c with
  | false => rfl
  | true => rw [ws_not_word hw] at h; exact absurd h (by simp)

theorem digit_not_ws {c : Char} (h : c.isDigit = true) : isWs c = false := by
  cases hw : isWs c with
  | false => rfl
  | true => rw [ws_not_digit hw] at h; exact absurd h (by simp)

theorem mem_wsSix_isWs {c : Char} (h : c ∈ wsSix) : isWs c = true := by
  fin_cases h <;> decide

/-! ### Claim theorems -/

/-- C5: note extraction from a matched line.  With no trailing text after
the day number the note is absent; a separator is matched once and the
remainder of the note is kept verbatim (then stripped); an empty captured
note fragment (group 4 equal to the empty string, as produced by a line
with only trailing whitespace) gives an absent note, not an empty note. -/
theorem c5_note_extraction :
    parseLine 2021 "Monday, January 27".data =
      .gotDate ⟨⟨2021, 1, 27⟩, remoteLocation, none⟩ ∧
    parseLine 2021 "Monday, January 27 - note - other - note".data =
      .gotDate ⟨⟨2021, 1, 27⟩, remoteLocation, some "note - other - note".data⟩ ∧
    date_reg_match "Monday, January 27 ".data = some ("Monday, January 27".data, some []) ∧
    parseLine 2021 "Monday, January 27 ".data =
      .gotDate ⟨⟨2021, 1, 27⟩, remoteLocation, none⟩ :=
  ⟨rfl, rfl, rfl, rfl⟩

/-- C10: strptime validates the month/day pair against its default year
1900, which is not a leap year, so February 29 raises ValueError for
every processing year, even one (such as 2024) in which February has 29
days. -/
theorem c10_feb29_reference_year (year : Nat) :
    parseLine year "Monday, February 29".data = .raised .badDate ∧
    date_from_lis year ["Monday, February 29".data] = .error .badDate ∧
    daysInMonth 2024 2 = 29 ∧ isLeap 1900 = false :=
  ⟨rfl, rfl, rfl, rfl⟩

/-- C1 (counterexample): the source tests only for the substring
"canceled"; the British spelling "cancelled" does not contain it, so a
note that contains the case-insensitive substring "cancelled" (here the
note is exactly that word) yields confirmed for a future start and
passed for a past start, never cancelled — against the claim, which says
the status is cancelled whenever either spelling occurs. -/
theorem c1_status_counterexample :
    containsSub "cancelled".data ("cancelled".data.map asciiLower) = true ∧
    (makeOneMeeting cancelledNoteDate sampleTime "me_".data "T".data .board nowJan8).status =
      .confirmed ∧
    (makeOneMeeting cancelledNoteDate sampleTime "me_".data "T".data .board nowJan10).status =
      .passed :=
  ⟨rfl, rfl, rfl⟩

theorem cancelNote_iff (notes : Option (List Char)) :
    cancelNote notes = true ↔
      ∃ s, notes = some s ∧ s ≠ [] ∧ containsSub "canceled".data (s.map asciiLower) = true := by
  cases notes with
  | none => simp [cancelNote]
  | some s =>
    cases s with
    | nil => simp [cancelNote]
    | cons c cs => simp [cancelNote]

/-- C1 (amended): for every assembled meeting record, the status is
cancelled iff the note is present, non-empty, and its casefolded text
contains the substring "canceled" (the American spelling only; a note
containing just the British spelling "cancelled" does not cancel);
otherwise the status is passed iff start is strictly before the clock
reading now, and confirmed otherwise.  The cancellation test takes
priority over the time comparison. -/
theorem c1_status_amended (dates : List MeetingDate) (t : PyTime) (stem title : List Char)
    (cls : Classification) (now : PyDateTime) (m : Meeting)
    (hm : m ∈ make_meeting dates t stem title cls now) :
    ∃ md ∈ dates, m = makeOneMeeting md t stem title cls now ∧
      (m.status = .cancelled ↔
        ∃ s, md.notes = some s ∧ s ≠ [] ∧
          containsSub "canceled".data (s.map asciiLower) = true) ∧
      (m.status = .passed ↔
        cancelNote md.notes = false ∧ dtLt (combineDT md.the_date t) now = true) ∧
      (m.status = .confirmed ↔
        cancelNote md.notes = false ∧ dtLt (combineDT md.the_date t) now = false) := by
  simp only [make_meeting, List.mem_map] at hm
  obtain ⟨md, hmd, hemb⟩ := hm
  refine ⟨md, hmd, hemb.symm, ?_, ?_, ?_⟩ <;>
      rw [hemb.symm] <;>
      simp only [makeOneMeeting]
  · rw [← cancelNote_iff]
    cases hcn : cancelNote md.notes <;>
      cases hlt : dtLt (combineDT md.the_date t) now <;> simp
  · cases hcn : cancelNote md.notes <;>
      cases hlt : dtLt (combineDT md.the_date t) now <;> simp
  · cases hcn : cancelNote md.notes <;>
      cases hlt : dtLt (combineDT md.the_date t) now <;> simp

/-- C1 (amended, witness): the amended characterization applied to a
concrete singleton list. -/
theorem c1_status_amended_witness :
    ∃ md ∈ [cancelledNoteDate],
      makeOneMeeting cancelledNoteDate sampleTime "me_".data "T".data .board nowJan8 =
        makeOneMeeting md sampleTime "me_".data "T".data .board nowJan8 ∧
      ((makeOneMeeting cancelledNoteDate sampleTime "me_".data "T".data .board nowJan8).status =
          .cancelled ↔
        ∃ s, md.notes = some s ∧ s ≠ [] ∧
          containsSub "canceled".data (s.map asciiLower) = true) ∧
      ((makeOneMeeting cancelledNoteDate sampleTime "me_".data "T".data .board nowJan8).status =
          .passed ↔
        cancelNote md.notes = false ∧
          dtLt (combineDT md.the_date sampleTime) nowJan8 = true) ∧
      ((makeOneMeeting cancelledNoteDate sampleTime "me_".data "T".data .board nowJan8).status =
          .confirmed ↔
        cancelNote md.notes = false ∧
          dtLt (combineDT md.the_date sampleTime) nowJan8 = false) :=
  c1_status_amended [cancelledNoteDate] sampleTime "me_".data "T".data .board nowJan8
    (makeOneMeeting cancelledNoteDate sampleTime "me_".data "T".data .board nowJan8)
    (by simp [make_meeting])

/-- C2 (counterexample): with id stem "p_" and start 2021-02-22 the
generated identity is "p__2021_02_22" — the f-string of the source
inserts an underscore of its own between the stem and the strftime
date — and not the claimed "p_2021_02_22". -/
theorem c2_identity_counterexample :
    (makeOneMeeting ⟨⟨2021, 2, 22⟩, remoteLocation, none⟩ ⟨18, 30, 0, 0⟩ "p_".data "T".data
        .board nowJan8).id = "p__2021_02_22".data ∧
    (makeOneMeeting ⟨⟨2021, 2, 22⟩, remoteLocation, none⟩ ⟨18, 30, 0, 0⟩ "p_".data "T".data
        .board nowJan8).id ≠ "p_2021_02_22".data :=
  ⟨rfl, by decide⟩

/-- C2 (amended): the generated identity is the caller-supplied id stem,
then one underscore, then the zero-padded YYYY_MM_DD of the start
timestamp (whose date fields are those of the meeting date); the
padding conjuncts show the zero-padding concretely. -/
theorem c2_identity_amended (md : MeetingDate) (t : PyTime) (stem title : List Char)
    (cls : Classification) (now : PyDateTime) :
    (makeOneMeeting md t stem title cls now).id =
      stem ++ '_' :: (padDigits 4 md.the_date.year ++ '_' ::
        (padDigits 2 md.the_date.month ++ '_' :: padDigits 2 md.the_date.day)) ∧
    padDigits 4 2021 = "2021".data ∧ padDigits 2 2 = "02".data ∧
    padDigits 2 22 = "22".data :=
  ⟨rfl, rfl, rfl, rfl⟩

/-- C3: the status computation reads the clock ambiently
(datetime.now() at source line 119, date.today() at line 153), so the
very same Python-level arguments give different records at different
execution moments: here the same meeting date is confirmed when
processed on 2021-01-08 and passed when processed on 2021-01-10.  This
contradicts the claim that the current time is an explicitly injected
parameter making the output independent of when the call runs. -/
theorem c3_ambient_clock_dependence :
    (makeOneMeeting plainJan9Date sampleTime "b_".data "T".data .board nowJan8).status =
      .confirmed ∧
    (makeOneMeeting plainJan9Date sampleTime "b_".data "T".data .board nowJan10).status =
      .passed ∧
    make_meeting [plainJan9Date] sampleTime "b_".data "T".data .board nowJan8 ≠
      make_meeting [plainJan9Date] sampleTime "b_".data "T".data .board nowJan10 :=
  ⟨rfl, rfl, by decide⟩

/-- C6 (counterexample): the line "Qqq, Qqq 5" does not match the spec's
date-line grammar — "Qqq" is neither a weekday name nor a month name, as
the first two conjuncts witness — yet the parser does not skip it: the
regular expression's word-class tokens accept it, strptime then raises
ValueError, and the whole list aborts, losing the record of the
following well-formed line. -/
theorem c6_no_skip_counterexample :
    matchTable weekdayTable "Qqq, Qqq 5".data = none ∧
    matchTable monthTable "Qqq 5".data = none ∧
    parseLine 2021 "Qqq, Qqq 5".data = .raised .badToken ∧
    date_from_lis 2021 ["Qqq, Qqq 5".data, "Monday, January 27".data] = .error .badToken ∧
    date_from_lis 2021 ["Monday, January 27".data] =
      .ok [⟨⟨2021, 1, 27⟩, remoteLocation, none⟩] :=
  ⟨rfl, rfl, rfl, rfl, rfl⟩

/-- C6 (amended): only a line rejected by the regular expression itself
(the loose shape word+ comma ws+ word+ ws+ digit+) is skipped
non-fatally, with all remaining lines still processed; a line that
matches the regular expression but fails strptime name validation
raises instead (see the counterexample). -/
theorem c6_skip_amended (year : Nat) (li : List Char) (rest : List (List Char))
    (h : date_reg_match li = none) :
    parseLine year li = .skipped ∧
    date_from_lis year (li :: rest) = date_from_lis year rest := by
  have hpl : parseLine year li = .skipped := by
    simp only [parseLine, h]
  exact ⟨hpl, by simp only [date_from_lis, hpl]⟩

/-- C6 (amended, witness): a line with no comma is skipped and the
following line still parses. -/
theorem c6_skip_amended_witness :
    parseLine 2021 "hello world".data = .skipped ∧
    date_from_lis 2021 ["hello world".data, "Monday, January 27".data] =
      date_from_lis 2021 ["Monday, January 27".data] :=
  c6_skip_amended 2021 "hello world".data ["Monday, January 27".data] rfl

/-- C8: the times verifier returns either PageChangedException or the
fixed constant MeetingTimes 18:30 / 19:00 / 10:00 / 10:00, and it
returns successfully exactly when there are exactly 3 direct p children,
at least 2 p grandchildren through a div, and the four pinned paragraph
texts strip-equal their constants; in particular any count deviation or
any text deviation yields the failure. -/
theorem c8_times_verifier (dv : HtmlNode) :
    (ensure_times_are_as_expected dv = .error .pageChanged ∨
      ensure_times_are_as_expected dv = .ok timeConstants) ∧
    ∀ mt, ensure_times_are_as_expected dv = .ok mt ↔
      ((∃ p1 p2 p3, xpathP dv = [p1, p2, p3] ∧
          pyStrip p1.text = expected_board_p ∧
          pyStrip p2.text = expected_general_p ∧
          pyStrip p3.text = expected_advisory_p) ∧
        (∃ q qrest, xpathDivP dv = q :: qrest ∧ qrest ≠ [] ∧
          pyStrip q.text = expected_lac_p) ∧
        mt = timeConstants) := by
  unfold ensure_times_are_as_expected
  rcases hps : xpathP dv with _ | ⟨p1, _ | ⟨p2, _ | ⟨p3, _ | ⟨p4, pt⟩⟩⟩⟩ <;>
    try exact ⟨Or.inl rfl, fun mt => by simp⟩
  rcases hqs : xpathDivP dv with _ | ⟨q1, _ | ⟨q2, qt⟩⟩ <;>
    try exact ⟨Or.inl rfl, fun mt => by simp [hqs]⟩
  by_cases h1 : pyStrip p1.text = expected_board_p <;>
    by_cases h2 : pyStrip p2.text = expected_general_p <;>
    by_cases h3 : pyStrip p3.text = expected_advisory_p <;>
    by_cases h4 : pyStrip q1.text = expected_lac_p
  all_goals simp [h1, h2, h3, h4]
  intro mt
  simp [eq_comm]
  exact ⟨fun hmt => ⟨⟨p1, p2, p3, ⟨rfl, rfl, rfl⟩, h1.symm, h2.symm, h3.symm⟩,
    ⟨q1, q2 :: qt, ⟨rfl, rfl⟩, by simp, h4.symm⟩, hmt⟩, fun h => h.2.2⟩

/-- C8 (witness): a subtree of exactly the expected shape verifies and
yields the constant times. -/
theorem c8_times_verifier_witness :
    ensure_times_are_as_expected goodBoardDiv = .ok timeConstants :=
  ((c8_times_verifier goodBoardDiv).2 timeConstants).mpr
    ⟨⟨pNode expected_board_p, pNode expected_general_p, pNode expected_advisory_p,
        rfl, rfl, rfl, rfl⟩,
      ⟨pNode expected_lac_p, [pNode []], rfl, List.cons_ne_nil _ _, rfl⟩, rfl⟩

/-- C9: the remote-statement check succeeds exactly when there is one
single p at the nested ./div/div/p location whose text contains the
pinned remote-meeting sentence, and otherwise (zero or several such
elements, or the sentence absent) it fails with PageChangedException;
success carries no data. -/
theorem c9_remote_check (dv : HtmlNode) :
    (ensure_meetings_are_remote dv = .ok () ↔
      ∃ p, xpathDivDivP dv = [p] ∧ containsSub remoteStatement p.text = true) ∧
    (ensure_meetings_are_remote dv = .ok () ∨
      ensure_meetings_are_remote dv = .error .pageChanged) := by
  unfold ensure_meetings_are_remote
  rcases hps : xpathDivDivP dv with _ | ⟨p1, _ | ⟨p2, pt⟩⟩
  · exact ⟨by simp, Or.inr rfl⟩
  · by_cases h : containsSub remoteStatement p1.text = true
    · exact ⟨by simp [h], Or.inl (by simp [h])⟩
    · refine ⟨by simp [h], Or.inr (by simp [h])⟩
  · exact ⟨by simp, Or.inr rfl⟩

/-- C9 (witness): the sample subtree passes the remote-statement check;
its sole nested p is the statement itself. -/
theorem c9_remote_check_witness :
    ensure_meetings_are_remote goodBoardDiv = .ok () :=
  (c9_remote_check goodBoardDiv).1.mpr ⟨pNode remoteStatement, rfl, rfl⟩

/-! ### Lemmas for C7 -/

theorem matchTable_mem (t : List (List Char × Nat)) (s : List Char) (v : Nat) (r : List Char)
    (h : matchTable t s = some (v, r)) : ∃ p ∈ t, p.2 = v := by
  induction t with
  | nil => simp [matchTable] at h
  | cons hd tl ih =>
    obtain ⟨n, w⟩ := hd
    simp only [matchTable] at h
    cases hcs : ciStrip n s with
    | some rr =>
      rw [hcs] at h
      simp only [Option.some.injEq, Prod.mk.injEq] at h
      exact ⟨(n, w), by simp, h.1⟩
    | none =>
      rw [hcs] at h
      obtain ⟨p, hp, hv⟩ := ih h
      exact ⟨p, by simp [hp], hv⟩

theorem strptimeTokens_month_range (s : List Char) (m d : Nat)
    (h : strptimeTokens s = some (m, d)) : 1 ≤ m ∧ m ≤ 12 := by
  unfold strptimeTokens at h
  split at h
  · exact absurd h (by simp)
  · split at h
    · split at h
      · exact absurd h (by simp)
      · split at h
        · exact absurd h (by simp)
        · split at h
          · exact absurd h (by simp)
          · split at h
            · exact absurd h (by simp)
            · split at h
              · exact absurd h (by simp)
              · rename_i x2 dm r6m heqmonth x1 r5v heqws x0 dd r6d heqday
                split at h
                · simp only [Option.some.injEq, Prod.mk.injEq] at h
                  obtain ⟨p, hp, hv⟩ := matchTable_mem _ _ _ _ heqmonth
                  rw [← h.1, ← hv]
                  fin_cases hp <;> simp
                · exact absurd h (by simp)
    · exact absurd h (by simp)

theorem daysInMonth_1900_le (y m : Nat) : daysInMonth 1900 m ≤ daysInMonth y m := by
  by_cases h2 : m = 2
  · subst h2
    simp only [daysInMonth, if_pos rfl]
    rw [show isLeap 1900 = false from rfl]
    cases hy : isLeap y <;> simp
  · simp only [daysInMonth, if_neg h2]
    exact le_refl _

/-- Lines that raise nothing leave an error from the tail intact:
the exception from a later line aborts the whole call. -/
theorem date_from_lis_append_error (year : Nat) (pres rest2 : List (List Char)) (e : PyError)
    (hok : ∀ li ∈ pres, ∀ e', parseLine year li ≠ .raised e')
    (herr : date_from_lis year rest2 = .error e) :
    date_from_lis year (pres ++ rest2) = .error e := by
  induction pres with
  | nil => simpa
  | cons li tl ih =>
    have htl : ∀ li' ∈ tl, ∀ e', parseLine year li' ≠ .raised e' :=
      fun li' h' => hok li' (by simp [h'])
    rw [List.cons_append]
    cases hres : parseLine year li with
    | skipped => simp only [date_from_lis, hres]; exact ih htl
    | gotDate md => simp only [date_from_lis, hres]; rw [ih htl]; rfl
    | raised e' => exact absurd hres (hok li (by simp) e')

/-- C7: a line whose tokens pass both the regular expression and the
strptime token phase but whose month/day pair is invalid for the
processing year raises the date ValueError; the exception is not caught,
so the whole list call returns the error, with no records — also when
well-formed lines precede or follow the bad one.  (Validity for the
processing year implies validity for strptime's reference year 1900,
since 1900 is the minimum of daysInMonth over years.) -/
theorem c7_invalid_date_aborts (year : Nat) (line g1 : List Char) (g4 : Option (List Char))
    (m d : Nat) (rest pres : List (List Char))
    (hmatch : date_reg_match line = some (g1, g4))
    (htok : strptimeTokens (pyStrip g1) = some (m, d))
    (hinv : daysInMonth year m < d) :
    parseLine year line = .raised .badDate ∧
    date_from_lis year (line :: rest) = .error .badDate ∧
    ((∀ li ∈ pres, ∀ e, parseLine year li ≠ .raised e) →
      date_from_lis year (pres ++ line :: rest) = .error .badDate) := by
  have h1900 : ¬ (d ≤ daysInMonth 1900 m) := by
    have := daysInMonth_1900_le year m
    omega
  have hpl : parseLine year line = .raised .badDate := by
    simp only [parseLine, hmatch, htok]
    rw [if_neg h1900]
  refine ⟨hpl, ?_, ?_⟩
  · simp only [date_from_lis, hpl]
  · intro hok
    exact date_from_lis_append_error year pres (line :: rest) .badDate hok
      (by simp only [date_from_lis, hpl])

/-- C7 (witness): the spec's own example "Tuesday, February 30" aborts a
list even when a well-formed line precedes it. -/
theorem c7_invalid_date_aborts_witness :
    date_from_lis 2021 ["Monday, January 27".data, "Tuesday, February 30".data] =
      .error .badDate :=
  (c7_invalid_date_aborts 2021 "Tuesday, February 30".data "Tuesday, February 30".data none
      2 30 [] ["Monday, January 27".data] rfl rfl (by decide)).2.2
    (by
      intro li hli e
      rw [List.mem_singleton] at hli
      subst hli
      rw [show parseLine 2021 "Monday, January 27".data =
        .gotDate ⟨⟨2021, 1, 27⟩, remoteLocation, none⟩ from rfl]
      simp)


/-! ### Lemmas for C4 -/

theorem headFails_cons {p : Char → Bool} {c : Char} {t : List Char} (h : p c = false) :
    headFails p (c :: t) := by
  intro x hx
  simp only [List.head?_cons, Option.mem_some_iff] at hx
  exact hx ▸ h

theorem headFails_of_head? {p : Char → Bool} {l : List Char} {c : Char}
    (h : l.head? = some c) (hc : p c = false) : headFails p l := by
  intro x hx
  rw [h] at hx
  rw [Option.mem_some_iff] at hx
  exact hx ▸ hc

theorem wsPlus_run (s r : List Char) (hs : s ≠ []) (hws : ∀ x ∈ s, isWs x = true)
    (hr : headFails isWs r) : wsPlus (s ++ r) = some r := by
  unfold wsPlus
  rw [takeWhile_run _ _ _ hws hr, dropWhile_run _ _ _ hws hr]
  cases s with
  | nil => exact absurd rfl hs
  | cons x t => rfl

/-- The regular expression on a line of the canonical shape: each run is
consumed whole and group 1 stops at the last day digit. -/
theorem date_reg_match_run (w1 s1 w2 s2 d1 rest : List Char)
    (hw1n : w1 ≠ []) (hw1 : ∀ x ∈ w1, isWord x = true)
    (hs1n : s1 ≠ []) (hs1 : ∀ x ∈ s1, isWs x = true)
    (hw2n : w2 ≠ []) (hw2 : ∀ x ∈ w2, isWord x = true)
    (hs2n : s2 ≠ []) (hs2 : ∀ x ∈ s2, isWs x = true)
    (hd1n : d1 ≠ []) (hd1 : ∀ x ∈ d1, x.isDigit = true)
    (hrest : headFails Char.isDigit rest) :
    date_reg_match (w1 ++ ',' :: (s1 ++ (w2 ++ (s2 ++ (d1 ++ rest))))) =
      some (w1 ++ ',' :: (s1 ++ (w2 ++ (s2 ++ d1))), group2 rest) := by
  have hw2f : headFails isWs (w2 ++ (s2 ++ (d1 ++ rest))) := by
    cases w2 with
    | nil => exact absurd rfl hw2n
    | cons x t => exact headFails_cons (word_not_ws (hw2 x (by simp)))
  have hs2f : headFails isWord (s2 ++ (d1 ++ rest)) := by
    cases s2 with
    | nil => exact absurd rfl hs2n
    | cons x t => exact headFails_cons (ws_not_word (hs2 x (by simp)))
  have hd1f : headFails isWs (d1 ++ rest) := by
    cases d1 with
    | nil => exact absurd rfl hd1n
    | cons x t => exact headFails_cons (digit_not_ws (hd1 x (by simp)))
  have t1 := takeWhile_run isWord w1 (',' :: (s1 ++ (w2 ++ (s2 ++ (d1 ++ rest))))) hw1
    (headFails_cons (by decide))
  have e1 := dropWhile_run isWord w1 (',' :: (s1 ++ (w2 ++ (s2 ++ (d1 ++ rest))))) hw1
    (headFails_cons (by decide))
  have t2 := takeWhile_run isWs s1 (w2 ++ (s2 ++ (d1 ++ rest))) hs1 hw2f
  have e2 := dropWhile_run isWs s1 (w2 ++ (s2 ++ (d1 ++ rest))) hs1 hw2f
  have t3 := takeWhile_run isWord w2 (s2 ++ (d1 ++ rest)) hw2 hs2f
  have e3 := dropWhile_run isWord w2 (s2 ++ (d1 ++ rest)) hw2 hs2f
  have t4 := takeWhile_run isWs s2 (d1 ++ rest) hs2 hd1f
  have e4 := dropWhile_run isWs s2 (d1 ++ rest) hs2 hd1f
  have t5 := takeWhile_run Char.isDigit d1 rest hd1 hrest
  have e5 := dropWhile_run Char.isDigit d1 rest hd1 hrest
  cases w1 with
  | nil => exact absurd rfl hw1n
  | cons a1 t1l =>
    cases s1 with
    | nil => exact absurd rfl hs1n
    | cons a2 t2l =>
      cases w2 with
      | nil => exact absurd rfl hw2n
      | cons a3 t3l =>
        cases s2 with
        | nil => exact absurd rfl hs2n
        | cons a4 t4l =>
          cases d1 with
          | nil => exact absurd rfl hd1n
          | cons a5 t5l =>
            unfold date_reg_match
            rw [t1, e1]
            simp only [t2, e2, t3, e3, t4, e4, t5, e5]

theorem pyStrip_id (s : List Char) (h1 : headFails isWs s) (h2 : headFails isWs s.reverse) :
    pyStrip s = s := by
  unfold pyStrip
  rw [dropWhile_headFails _ _ h1, dropWhile_headFails _ _ h2, List.reverse_reverse]

/-- C4: for all non-empty runs a, b, c (and d) of characters from the
six-character whitespace set of the spec, the line
"Monday," a "January" b "27" c "note" parses to the date
(current year, January 27) with note "note", and so does the dash form
"Monday," a "January" b "27" c dash d "note" for dash an ASCII
hyphen-minus or an en-dash. -/
theorem c4_whitespace (year : Nat) (a b c d : List Char) (dash : Char)
    (ha : a ≠ [] ∧ ∀ x ∈ a, x ∈ wsSix) (hb : b ≠ [] ∧ ∀ x ∈ b, x ∈ wsSix)
    (hc : c ≠ [] ∧ ∀ x ∈ c, x ∈ wsSix) (hd : d ≠ [] ∧ ∀ x ∈ d, x ∈ wsSix)
    (hdash : dash = '-' ∨ dash = '–') :
    parseLine year ("Monday,".data ++ (a ++ ("January".data ++ (b ++ ("27".data ++
        (c ++ "note".data)))))) =
      .gotDate ⟨⟨year, 1, 27⟩, remoteLocation, some "note".data⟩ ∧
    parseLine year ("Monday,".data ++ (a ++ ("January".data ++ (b ++ ("27".data ++
        (c ++ (dash :: (d ++ "note".data)))))))) =
      .gotDate ⟨⟨year, 1, 27⟩, remoteLocation, some "note".data⟩ := by
  obtain ⟨ha0, haS⟩ := ha
  obtain ⟨hb0, hbS⟩ := hb
  obtain ⟨hc0, hcS⟩ := hc
  obtain ⟨hd0, hdS⟩ := hd
  have haw : ∀ x ∈ a, isWs x = true := fun x hx => mem_wsSix_isWs (haS x hx)
  have hbw : ∀ x ∈ b, isWs x = true := fun x hx => mem_wsSix_isWs (hbS x hx)
  have hcw : ∀ x ∈ c, isWs x = true := fun x hx => mem_wsSix_isWs (hcS x hx)
  have hdw : ∀ x ∈ d, isWs x = true := fun x hx => mem_wsSix_isWs (hdS x hx)
  -- strptime token phase on the stripped group 1
  have hwk : matchTable weekdayTable ("Monday".data ++ ',' :: (a ++ ("January".data ++
      (b ++ "27".data)))) = some (1, ',' :: (a ++ ("January".data ++ (b ++ "27".data)))) := rfl
  have hmonth : matchTable monthTable ("January".data ++ (b ++ "27".data)) =
      some (1, b ++ "27".data) := rfl
  have hws1 : wsPlus (a ++ ("January".data ++ (b ++ "27".data))) =
      some ("January".data ++ (b ++ "27".data)) :=
    wsPlus_run _ _ ha0 haw (headFails_of_head? rfl (by decide))
  have hws2 : wsPlus (b ++ "27".data) = some "27".data :=
    wsPlus_run _ _ hb0 hbw (headFails_of_head? rfl (by decide))
  have hst : strptimeTokens ("Monday".data ++ ',' :: (a ++ ("January".data ++
      (b ++ "27".data)))) = some (1, 27) := by
    unfold strptimeTokens
    simp only [hwk, hws1, hmonth, hws2]
    rfl
  have hg1head : headFails isWs ("Monday".data ++ ',' :: (a ++ ("January".data ++
      (b ++ "27".data)))) := headFails_of_head? rfl (by decide)
  have hg1last : ("Monday".data ++ ',' :: (a ++ ("January".data ++
      (b ++ "27".data)))).getLast? = some '7' := by
    rw [show "Monday".data ++ ',' :: (a ++ ("January".data ++ (b ++ "27".data))) =
      ("Monday".data ++ ',' :: (a ++ ("January".data ++ b))) ++ "27".data from by
        simp [List.append_assoc]]
    rw [List.getLast?_append_of_ne_nil _ (by decide)]
    decide
  have hstrip : pyStrip ("Monday".data ++ ',' :: (a ++ ("January".data ++
      (b ++ "27".data)))) = "Monday".data ++ ',' :: (a ++ ("January".data ++ (b ++ "27".data))) :=
    pyStrip_id _ hg1head
      (headFails_of_head? (by rw [List.head?_reverse, hg1last]) (by decide))
  have hfc1 : headFails Char.isDigit (c ++ "note".data) := by
    cases c with
    | nil => exact absurd rfl hc0
    | cons x t => exact headFails_cons (ws_not_digit (hcw x (by simp)))
  have hdashWs : isWs dash = false := by rcases hdash with h | h <;> subst h <;> decide
  have hfc2 : headFails Char.isDigit (c ++ (dash :: (d ++ "note".data))) := by
    cases c with
    | nil => exact absurd rfl hc0
    | cons x t => exact headFails_cons (ws_not_digit (hcw x (by simp)))
  have hnote : headFails isWs "note".data := headFails_of_head? rfl (by decide)
  have hg2a : group2 (c ++ "note".data) = some "note".data := by
    unfold group2
    rw [takeWhile_run isWs c "note".data hcw hnote,
        dropWhile_run isWs c "note".data hcw hnote]
    cases c with
    | nil => exact absurd rfl hc0
    | cons x t => rfl
  have hg2b : group2 (c ++ (dash :: (d ++ "note".data))) = some "note".data := by
    unfold group2
    rw [takeWhile_run _ _ _ hcw (headFails_cons hdashWs),
        dropWhile_run _ _ _ hcw (headFails_cons hdashWs)]
    cases c with
    | nil => exact absurd rfl hc0
    | cons x t =>
      have hdw2 : (d ++ "note".data).takeWhile isWs = d :=
        takeWhile_run isWs d "note".data hdw hnote
      have hdw3 : (d ++ "note".data).dropWhile isWs = "note".data :=
        dropWhile_run isWs d "note".data hdw hnote
      rcases hdash with h | h <;> subst h <;>
        simp only [hdw2, hdw3] <;>
        cases d with
        | nil => exact absurd rfl hd0
        | cons y u => rfl
  constructor
  · rw [show "Monday,".data ++ (a ++ ("January".data ++ (b ++ ("27".data ++
        (c ++ "note".data))))) = "Monday".data ++ ',' :: (a ++ ("January".data ++
        (b ++ ("27".data ++ (c ++ "note".data))))) from rfl]
    have hm := date_reg_match_run "Monday".data a "January".data b "27".data
      (c ++ "note".data) (by decide) (by decide) ha0 haw (by decide) (by decide)
      hb0 hbw (by decide) (by decide) hfc1
    simp only [parseLine, hm, hstrip, hst, hg2a]
    rfl
  · rw [show "Monday,".data ++ (a ++ ("January".data ++ (b ++ ("27".data ++
        (c ++ (dash :: (d ++ "note".data))))))) = "Monday".data ++ ',' :: (a ++
        ("January".data ++ (b ++ ("27".data ++ (c ++ (dash :: (d ++ "note".data))))))) from rfl]
    have hm := date_reg_match_run "Monday".data a "January".data b "27".data
      (c ++ (dash :: (d ++ "note".data))) (by decide) (by decide) ha0 haw (by decide) (by decide)
      hb0 hbw (by decide) (by decide) hfc2
    simp only [parseLine, hm, hstrip, hst, hg2b]
    rfl



/-- C4 (witness): the whitespace theorem applied at em space, no-break
space, tab, space, and the en-dash. -/
theorem c4_whitespace_witness :
    parseLine 2021 ("Monday,".data ++ (['\u2003'] ++ ("January".data ++ (['\u00A0'] ++
        ("27".data ++ (['\t'] ++ "note".data)))))) =
      .gotDate ⟨⟨2021, 1, 27⟩, remoteLocation, some "note".data⟩ ∧
    parseLine 2021 ("Monday,".data ++ (['\u2003'] ++ ("January".data ++ (['\u00A0'] ++
        ("27".data ++ (['\t'] ++ ('–' :: ([' '] ++ "note".data)))))))) =
      .gotDate ⟨⟨2021, 1, 27⟩, remoteLocation, some "note".data⟩ :=
  c4_whitespace 2021 ['\u2003'] ['\u00A0'] ['\t'] [' '] '–'
    ⟨by decide, by decide⟩ ⟨by decide, by decide⟩ ⟨by decide, by decide⟩
    ⟨by decide, by decide⟩ (Or.inr rfl)

end AlleLib
